import Mathlib

/-!
Shallow embedding of `doublethink/services.py` (the rethinkdb-backed
service registry) and proofs about its operations.

Modelling conventions:
* A rethinkdb document is an association list `Dict` with unique keys
  (Python dict semantics); values are strings, numbers or timestamps,
  with times and numbers both carried as integers for arithmetic.
* The `services` table is a list of documents (`Store`); `get`/`get_all`
  on the primary key match the `"id"` field, the secondary index matches
  the `"role"` field.
* The wall clock (`doublethink.utcnow()` / `r.now()`), `socket.gethostname()`
  and `os.getpid()` are passed in as explicit parameters.
* A raised exception is an `err : Option String` field in the result
  (`some msg` = raised); storage failure is an explicit `storageOk` flag.
-/

namespace Doublethink

/-- A rethinkdb value: string, number, or timestamp. -/
inductive Value where
  | str : String → Value
  | num : ℤ → Value
  | time : ℤ → Value
deriving DecidableEq, Repr

/-- A document: association list with (maintained) unique keys, like a
Python dict. -/
abbrev Dict := List (String × Value)

/-- `d[k]` lookup: the first binding of `k`. -/
def dget (d : Dict) (k : String) : Option Value :=
  match d with
  | [] => none
  | (k', v) :: rest => if k' = k then some v else dget rest k

/-- `k in d`. -/
def dmem (d : Dict) (k : String) : Bool :=
  (dget d k).isSome

/-- `d[k] = v`: replace the first binding of `k`, or append. -/
def dset (d : Dict) (k : String) (v : Value) : Dict :=
  match d with
  | [] => [(k, v)]
  | (k', v') :: rest => if k' = k then (k, v) :: rest else (k', v') :: dset rest k v

/-- `del d[k]`: drop the first binding of `k`. -/
def derase (d : Dict) (k : String) : Dict :=
  match d with
  | [] => []
  | (k', v') :: rest => if k' = k then rest else (k', v') :: derase rest k

/-- `d.update(u)` merge as rethinkdb `update` does: set every field of `u`. -/
def dmerge (d u : Dict) : Dict :=
  u.foldl (fun acc kv => dset acc kv.1 kv.2) d

/-- The `isinstance(val, float) or isinstance(val, int)` plus `val > 0`
check applied to `'ttl'` (a timestamp is not a Python number). -/
def isPosNum : Option Value → Bool
  | some (.num q) => decide (0 < q)
  | _ => false

/-- Numeric view of a field for comparisons done by the database
(timestamps and numbers both compare as integers; anything else is
out of the model's scope and reads as 0). -/
def asNum : Option Value → ℤ
  | some (.num q) => q
  | some (.time t) => t
  | _ => 0

/-- The `services` table. -/
abbrev Store := List Dict

/-- `table.get(key)`: the row whose primary key `'id'` is `key`. -/
def storeGet (store : Store) (key : String) : Option Dict :=
  match store with
  | [] => none
  | r :: rest => if dget r "id" = some (Value.str key) then some r else storeGet rest key

/-- `table.get(key).replace(...)` writing `newRow`: replace the row whose
`'id'` is `key` in place, or insert when absent. -/
def storeReplaceAt (store : Store) (key : String) (newRow : Dict) : Store :=
  match store with
  | [] => [newRow]
  | r :: rest =>
      if dget r "id" = some (Value.str key) then newRow :: rest
      else r :: storeReplaceAt rest key newRow

/-- `table.get(key).update(u)`: merge `u` into the row whose `'id'` is
`key`; no-op when absent. -/
def storeUpdateAt (store : Store) (key : String) (u : Dict) : Store :=
  match store with
  | [] => []
  | r :: rest =>
      if dget r "id" = some (Value.str key) then dmerge r u :: rest
      else r :: storeUpdateAt rest key u

/-- `table.insert(row, conflict='replace')` for a row that has an `'id'`:
replace the row with the same `'id'` value, or append. -/
def storeUpsert (store : Store) (row : Dict) : Store :=
  match store with
  | [] => [row]
  | r :: rest =>
      if dget r "id" = dget row "id" then row :: rest
      else r :: storeUpsert rest row

/-- The `if not k in d: d[k] = v` pattern used for defaulted fields. -/
def defaultIfAbsent (d : Dict) (k : String) (v : Value) : Dict :=
  if dmem d k then d else dset d k v

/-- `ServiceRegistry.heartbeat` result: the table afterwards, the caller's
`status_info` dict after the call (the source only ever writes to the copy
`dict(status_info)`, so it is the input itself), the returned dict (absent
when the call raised), and the raised message if any. -/
structure HBOut where
  store : Store
  statusAfter : Dict
  ret : Option Dict
  err : Option String
deriving DecidableEq, Repr

/-- `ServiceRegistry.heartbeat(status_info)` (services.py:115-161).
`now` models `r.now()`, `host`/`pid` the environment fallbacks, `genId`
the id rethinkdb would generate when `'id'` is absent, and `storageOk`
whether the insert round trip succeeds. -/
def heartbeat (now : ℤ) (host : String) (pid : ℤ) (genId : String)
    (storageOk : Bool) (store : Store) (status_info : Dict) : HBOut :=
  if ¬ dmem status_info "role" then
    ⟨store, status_info, none, some "status_info is missing required field role"⟩
  else if ¬ dmem status_info "ttl" then
    ⟨store, status_info, none, some "status_info is missing required field ttl"⟩
  else if ¬ dmem status_info "load" then
    ⟨store, status_info, none, some "status_info is missing required field load"⟩
  else if ¬ isPosNum (dget status_info "ttl") then
    ⟨store, status_info, none, some "ttl must be a number > 0"⟩
  else
    let u0 := dset status_info "last_heartbeat" (Value.time now)
    let u1 := defaultIfAbsent u0 "first_heartbeat" (Value.time now)
    let u2 := defaultIfAbsent u1 "host" (Value.str host)
    let u3 := defaultIfAbsent u2 "pid" (Value.num pid)
    if storageOk then
      let u4 := defaultIfAbsent u3 "id" (Value.str genId)
      ⟨storeUpsert store u4, status_info, some u4, none⟩
    else
      ⟨store, status_info, some status_info, none⟩

/-- The staleness test inside the conditional replace of `unique_service`
(services.py:244): `row['last_heartbeat'] > now - row['ttl']`. -/
def replaceLiveCond (now : ℤ) (row : Dict) : Bool :=
  decide (asNum (dget row "last_heartbeat") > now - asNum (dget row "ttl"))

/-- The health filter of the final read of `unique_service`
(services.py:257): `row['last_heartbeat'] > now - row['ttl']`. -/
def finalFilterCond (now : ℤ) (row : Dict) : Bool :=
  decide (asNum (dget row "last_heartbeat") > now - asNum (dget row "ttl"))

/-- The atomic conditional replace of `unique_service` (services.py:239-248):
keep the current row when it exists and is live, otherwise write
`cand`; returns the table afterwards and `new_val`. -/
def conditionalReplace (now : ℤ) (role : String) (cand : Dict)
    (store : Store) : Store × Dict :=
  let newVal :=
    match storeGet store role with
    | some row => if replaceLiveCond now row then row else cand
    | none => cand
  (storeReplaceAt store role newVal, newVal)

/-- The winner test of `unique_service` (services.py:249-250):
`all(new_val.get(k) == candidate[k] for k in candidate
     if k not in ('first_heartbeat', 'last_heartbeat'))`. -/
def isWinner (newVal cand : Dict) : Bool :=
  (cand.map Prod.fst).all fun k =>
    decide (k = "first_heartbeat") || decide (k = "last_heartbeat") ||
      decide (dget newVal k = dget cand k)

/-- The candidate as mutated by services.py:224,232-237: force
`'id' = role`, stamp both heartbeats with `now`, default host/pid. -/
def stampCandidate (now : ℤ) (host : String) (pid : ℤ) (role : String)
    (cand0 : Dict) : Dict :=
  let c1 := dset cand0 "id" (Value.str role)
  let c2 := dset c1 "first_heartbeat" (Value.time now)
  let c3 := dset c2 "last_heartbeat" (Value.time now)
  defaultIfAbsent (defaultIfAbsent c3 "host" (Value.str host)) "pid" (Value.num pid)

/-- Result of the candidate-supplied phase of `unique_service`: the table
afterwards, the caller's candidate dict after in-place mutation, `new_val`
of the conditional replace (absent when the call raised), raised message. -/
structure ElectionOut where
  store : Store
  cand : Dict
  newVal : Option Dict
  err : Option String
deriving DecidableEq, Repr

/-- The candidate-supplied phase of `unique_service` (services.py:223-253):
validate `'ttl'`, stamp the candidate, run the conditional replace, and if
the candidate is recognized as the winner delete its `'first_heartbeat'`
and send the heartbeat update. -/
def electionStep (now : ℤ) (host : String) (pid : ℤ) (role : String)
    (cand0 : Dict) (store : Store) : ElectionOut :=
  let c1 := dset cand0 "id" (Value.str role)
  if ¬ dmem c1 "ttl" then
    ⟨store, c1, none, some "candidate is missing required field ttl"⟩
  else if ¬ isPosNum (dget c1 "ttl") then
    ⟨store, c1, none, some "ttl must be a number > 0"⟩
  else
    let c2 := stampCandidate now host pid role cand0
    let rep := conditionalReplace now role c2 store
    if isWinner rep.2 c2 then
      let c3 := derase c2 "first_heartbeat"
      ⟨storeUpdateAt rep.1 role c3, c3, some rep.2, none⟩
    else
      ⟨rep.1, c2, some rep.2, none⟩

/-- The final read of `unique_service` (services.py:255-261):
`get_all(role)` on the primary key, filtered by the health test at the
captured `now`, first result or `None`. -/
def finalRead (now : ℤ) (role : String) (store : Store) : Option Dict :=
  (store.filter fun row =>
    decide (dget row "id" = some (Value.str role)) && finalFilterCond now row).head?

/-- `ServiceRegistry.unique_service` result: the table afterwards, the
caller's candidate after in-place mutation (absent when no candidate was
supplied), the returned service, and the raised message if any. -/
structure USOut where
  store : Store
  candAfter : Option Dict
  ret : Option Dict
  err : Option String
deriving DecidableEq, Repr

/-- `ServiceRegistry.unique_service(role, candidate)` (services.py:175-261),
written out in full: a single `now` is captured once and used by every
sub-query. -/
def unique_service (now : ℤ) (host : String) (pid : ℤ) (role : String)
    (candidate : Option Dict) (store : Store) : USOut :=
  match candidate with
  | none => ⟨store, none, finalRead now role store, none⟩
  | some cand0 =>
      let c1 := dset cand0 "id" (Value.str role)
      if ¬ dmem c1 "ttl" then
        ⟨store, some c1, none, some "candidate is missing required field ttl"⟩
      else if ¬ isPosNum (dget c1 "ttl") then
        ⟨store, some c1, none, some "ttl must be a number > 0"⟩
      else
        let c2 := stampCandidate now host pid role cand0
        let rep := conditionalReplace now role c2 store
        if isWinner rep.2 c2 then
          let c3 := derase c2 "first_heartbeat"
          let st2 := storeUpdateAt rep.1 role c3
          ⟨st2, some c3, finalRead now role st2, none⟩
        else
          ⟨rep.1, some c2, finalRead now role rep.1, none⟩

/-- The health filter of `healthy_service`/`healthy_services`
(services.py:279,305): `r.now() - svc['last_heartbeat'] < svc['ttl']`. -/
def svcHealthy (now : ℤ) (svc : Dict) : Bool :=
  decide (now - asNum (dget svc "last_heartbeat") < asNum (dget svc "ttl"))

/-- `order_by('load')`: ascending by the `'load'` field. -/
def loadLE (a b : Dict) : Prop :=
  asNum (dget a "load") ≤ asNum (dget b "load")

instance : DecidableRel loadLE :=
  fun a b => inferInstanceAs (Decidable (asNum (dget a "load") ≤ asNum (dget b "load")))

instance : IsTotal Dict loadLE :=
  ⟨fun _ _ => le_total _ _⟩

instance : IsTrans Dict loadLE :=
  ⟨fun _ _ _ => le_trans⟩

/-- `ServiceRegistry.healthy_service(role)` (services.py:263-283): rows of
the `'role'` index, health-filtered at the current time, ordered by
ascending `'load'`, first one or `None`. -/
def healthy_service (now : ℤ) (role : String) (store : Store) : Option Dict :=
  (List.insertionSort loadLE
    ((store.filter fun svc => decide (dget svc "role" = some (Value.str role))).filter
      (svcHealthy now))).head?

/-- The deletion filter of `purge_stale_services` (services.py:317):
`r.now() - svc['last_heartbeat'] > svc['ttl'] * ttls_until_deletion`. -/
def purgeCond (now mult : ℤ) (svc : Dict) : Bool :=
  decide (now - asNum (dget svc "last_heartbeat") > asNum (dget svc "ttl") * mult)

/-- `ServiceRegistry.purge_stale_services(ttls_until_deletion=2)`
(services.py:315-322): delete every row matching the staleness filter;
the table afterwards. -/
def purge_stale_services (now mult : ℤ) (store : Store) : Store :=
  store.filter fun svc => ! purgeCond now mult svc

/-! ## Helper lemmas about the dictionary and table model -/

theorem dget_dset_self (d : Dict) (k : String) (v : Value) :
    dget (dset d k v) k = some v := by
  induction d with
  | nil => simp [dget, dset]
  | cons hd tl ih =>
      by_cases h : hd.1 = k
      · simp [dget, dset, h]
      · simp [dget, dset, h, ih]

theorem dget_dset_ne (d : Dict) (k k' : String) (v : Value) (h : k ≠ k') :
    dget (dset d k v) k' = dget d k' := by
  induction d with
  | nil => simp [dget, dset, h, Ne.symm h]
  | cons hd tl ih =>
      by_cases h1 : hd.1 = k
      · simp [dget, dset, h1, h, Ne.symm h]
      · by_cases h2 : hd.1 = k'
        · simp [dget, dset, h1, h2, Ne.symm h]
        · simp [dget, dset, h1, h2, ih]

theorem dget_derase_ne (d : Dict) (k k' : String) (h : k ≠ k') :
    dget (derase d k) k' = dget d k' := by
  induction d with
  | nil => simp [derase]
  | cons hd tl ih =>
      by_cases h1 : hd.1 = k
      · have h2 : ¬ hd.1 = k' := by rw [h1]; exact h
        simp [derase, dget, h1, h2, h]
      · by_cases h2 : hd.1 = k'
        · simp [derase, dget, h1, h2, Ne.symm h]
        · simp [derase, dget, h1, h2, ih]

theorem mem_keys_of_dget {d : Dict} {k : String} {v : Value}
    (h : dget d k = some v) : k ∈ d.map Prod.fst := by
  induction d with
  | nil => simp [dget] at h
  | cons hd tl ih =>
      by_cases h1 : hd.1 = k
      · simp [h1]
      · rw [List.map_cons, List.mem_cons]
        right
        apply ih
        rw [dget, if_neg h1] at h
        exact h

theorem dget_isSome_of_mem_keys {d : Dict} {k : String}
    (h : k ∈ d.map Prod.fst) : (dget d k).isSome := by
  induction d with
  | nil => simp at h
  | cons hd tl ih =>
      by_cases h1 : hd.1 = k
      · simp [dget, h1]
      · rw [List.map_cons, List.mem_cons] at h
        rcases h with h | h
        · exact absurd h.symm h1
        · rw [dget, if_neg h1]
          exact ih h

theorem dget_defaultIfAbsent_ne (d : Dict) (k k' : String) (v : Value)
    (h : k ≠ k') : dget (defaultIfAbsent d k v) k' = dget d k' := by
  unfold defaultIfAbsent
  split_ifs
  · rfl
  · exact dget_dset_ne d k k' v h

theorem stampCandidate_dget_id (now : ℤ) (host : String) (pid : ℤ)
    (role : String) (cand0 : Dict) :
    dget (stampCandidate now host pid role cand0) "id" = some (Value.str role) := by
  unfold stampCandidate
  rw [dget_defaultIfAbsent_ne _ _ _ _ (by decide),
      dget_defaultIfAbsent_ne _ _ _ _ (by decide),
      dget_dset_ne _ _ _ _ (by decide), dget_dset_ne _ _ _ _ (by decide),
      dget_dset_self]

theorem stampCandidate_dget_lastHeartbeat (now : ℤ) (host : String) (pid : ℤ)
    (role : String) (cand0 : Dict) :
    dget (stampCandidate now host pid role cand0) "last_heartbeat" =
      some (Value.time now) := by
  unfold stampCandidate
  rw [dget_defaultIfAbsent_ne _ _ _ _ (by decide),
      dget_defaultIfAbsent_ne _ _ _ _ (by decide),
      dget_dset_self]

theorem stampCandidate_dget_ttl (now : ℤ) (host : String) (pid : ℤ)
    (role : String) (cand0 : Dict) :
    dget (stampCandidate now host pid role cand0) "ttl" = dget cand0 "ttl" := by
  unfold stampCandidate
  rw [dget_defaultIfAbsent_ne _ _ _ _ (by decide),
      dget_defaultIfAbsent_ne _ _ _ _ (by decide),
      dget_dset_ne _ _ _ _ (by decide), dget_dset_ne _ _ _ _ (by decide),
      dget_dset_ne _ _ _ _ (by decide)]

theorem dget_defaultIfAbsent_self_of_none (d : Dict) (k : String) (v : Value)
    (h : dget d k = none) : dget (defaultIfAbsent d k v) k = some v := by
  unfold defaultIfAbsent
  rw [dmem, h]
  simp only [Option.isSome_none, Bool.false_eq_true, if_false]
  exact dget_dset_self d k v

theorem stampCandidate_dget_firstHeartbeat (now : ℤ) (host : String) (pid : ℤ)
    (role : String) (cand0 : Dict) :
    dget (stampCandidate now host pid role cand0) "first_heartbeat" =
      some (Value.time now) := by
  unfold stampCandidate
  rw [dget_defaultIfAbsent_ne _ _ _ _ (by decide),
      dget_defaultIfAbsent_ne _ _ _ _ (by decide),
      dget_dset_ne _ _ _ _ (by decide), dget_dset_self]

theorem stampCandidate_dget_host (now : ℤ) (host : String) (pid : ℤ)
    (role : String) (cand0 : Dict) (h : dget cand0 "host" = none) :
    dget (stampCandidate now host pid role cand0) "host" =
      some (Value.str host) := by
  unfold stampCandidate
  rw [dget_defaultIfAbsent_ne _ _ _ _ (by decide)]
  apply dget_defaultIfAbsent_self_of_none
  rw [dget_dset_ne _ _ _ _ (by decide), dget_dset_ne _ _ _ _ (by decide),
      dget_dset_ne _ _ _ _ (by decide)]
  exact h

theorem stampCandidate_dget_pid (now : ℤ) (host : String) (pid : ℤ)
    (role : String) (cand0 : Dict) (h : dget cand0 "pid" = none) :
    dget (stampCandidate now host pid role cand0) "pid" =
      some (Value.num pid) := by
  unfold stampCandidate
  apply dget_defaultIfAbsent_self_of_none
  rw [dget_defaultIfAbsent_ne _ _ _ _ (by decide),
      dget_dset_ne _ _ _ _ (by decide), dget_dset_ne _ _ _ _ (by decide),
      dget_dset_ne _ _ _ _ (by decide)]
  exact h

theorem dget_id_of_storeGet {store : Store} {key : String} {row : Dict}
    (h : storeGet store key = some row) :
    dget row "id" = some (Value.str key) := by
  induction store with
  | nil => simp [storeGet] at h
  | cons hd tl ih =>
      by_cases h1 : dget hd "id" = some (Value.str key)
      · rw [storeGet, if_pos h1] at h
        injection h with h
        subst h
        exact h1
      · rw [storeGet, if_neg h1] at h
        exact ih h

theorem isPosNum_isSome {o : Option Value} (h : isPosNum o = true) :
    o.isSome := by
  match o with
  | some (.num q) => rfl
  | some (.str s) => simp [isPosNum] at h
  | some (.time t) => simp [isPosNum] at h
  | none => simp [isPosNum] at h

theorem storeGet_eq_none_iff (store : Store) (key : String) :
    storeGet store key = none ↔
      ∀ r ∈ store, ¬ dget r "id" = some (Value.str key) := by
  induction store with
  | nil => simp [storeGet]
  | cons hd tl ih =>
      by_cases h1 : dget hd "id" = some (Value.str key)
      · simp [storeGet, h1]
      · simp [storeGet, h1, ih]

theorem storeReplaceAt_of_get_self {store : Store} {key : String} {row : Dict}
    (h : storeGet store key = some row) : storeReplaceAt store key row = store := by
  induction store with
  | nil => simp [storeGet] at h
  | cons hd tl ih =>
      by_cases h1 : dget hd "id" = some (Value.str key)
      · rw [storeGet, if_pos h1] at h
        injection h with h
        subst h
        rw [storeReplaceAt, if_pos h1]
      · rw [storeGet, if_neg h1] at h
        rw [storeReplaceAt, if_neg h1, ih h]

theorem storeGet_storeReplaceAt (store : Store) {key : String} {row : Dict}
    (h : dget row "id" = some (Value.str key)) :
    storeGet (storeReplaceAt store key row) key = some row := by
  induction store with
  | nil => simp [storeReplaceAt, storeGet, h]
  | cons hd tl ih =>
      by_cases h1 : dget hd "id" = some (Value.str key)
      · simp [storeReplaceAt, storeGet, h1, h]
      · simp [storeReplaceAt, storeGet, h1, ih]

theorem finalRead_of_get_none {now : ℤ} {role : String} {store : Store}
    (h : storeGet store role = none) : finalRead now role store = none := by
  rw [storeGet_eq_none_iff] at h
  have hf : store.filter (fun row =>
      decide (dget row "id" = some (Value.str role)) && finalFilterCond now row) = [] := by
    rw [List.filter_eq_nil_iff]
    intro a ha
    simp [h a ha]
  simp [finalRead, hf]

theorem finalRead_of_get_unique {now : ℤ} {role : String} {store : Store} {rcd : Dict}
    (hone : store.countP (fun d => decide (dget d "id" = some (Value.str role))) ≤ 1)
    (h : storeGet store role = some rcd) :
    finalRead now role store =
      if finalFilterCond now rcd then some rcd else none := by
  induction store with
  | nil => simp [storeGet] at h
  | cons hd tl ih =>
      by_cases h1 : dget hd "id" = some (Value.str role)
      · rw [storeGet, if_pos h1] at h
        injection h with h
        subst h
        have htl : tl.countP (fun d => decide (dget d "id" = some (Value.str role))) = 0 := by
          rw [List.countP_cons_of_pos] at hone
          · omega
          · simp [h1]
        have htl' : ∀ r ∈ tl, ¬ dget r "id" = some (Value.str role) := by
          intro r hr
          have := (List.countP_eq_zero.mp htl) r hr
          simpa using this
        have hf : tl.filter (fun row =>
            decide (dget row "id" = some (Value.str role)) && finalFilterCond now row) = [] := by
          rw [List.filter_eq_nil_iff]
          intro a ha
          simp [htl' a ha]
        by_cases hh : finalFilterCond now hd
        · simp [finalRead, List.filter_cons, h1, hh, hf]
        · simp [finalRead, List.filter_cons, h1, hh, hf]
      · rw [storeGet, if_neg h1] at h
        have hone' : tl.countP (fun d => decide (dget d "id" = some (Value.str role))) ≤ 1 := by
          rw [List.countP_cons_of_neg] at hone
          · exact hone
          · simp [h1]
        have := ih hone' h
        simpa [finalRead, List.filter_cons, h1] using this

/-! ## Claim theorems -/

/-- C6: for every `status_info` missing any of `role`, `load`, `ttl`, or
whose `ttl` is not a number greater than zero, `heartbeat` fails with the
validation error and issues no storage operation: the table is unchanged
and no record is returned. -/
theorem heartbeat_validation (now : ℤ) (host : String) (pid : ℤ) (genId : String)
    (storageOk : Bool) (store : Store) (status_info : Dict)
    (h : dget status_info "role" = none ∨ dget status_info "ttl" = none ∨
         dget status_info "load" = none ∨ isPosNum (dget status_info "ttl") = false) :
    (heartbeat now host pid genId storageOk store status_info).store = store ∧
    (heartbeat now host pid genId storageOk store status_info).ret = none ∧
    (heartbeat now host pid genId storageOk store status_info).err.isSome = true := by
  unfold heartbeat
  by_cases h1 : dmem status_info "role"
  · by_cases h2 : dmem status_info "ttl"
    · by_cases h3 : dmem status_info "load"
      · have h4 : isPosNum (dget status_info "ttl") = false := by
          rcases h with h | h | h | h
          · rw [dmem, h] at h1; simp at h1
          · rw [dmem, h] at h2; simp at h2
          · rw [dmem, h] at h3; simp at h3
          · exact h
        simp [h1, h2, h3, h4]
      · simp [h1, h2, h3]
    · simp [h1, h2]
  · simp [h1]

/-- Witness for C6: the empty status map is rejected with the table
untouched. -/
theorem heartbeat_validation_witness :
    (heartbeat 0 "h" 1 "g" true [] []).store = [] ∧
    (heartbeat 0 "h" 1 "g" true [] []).ret = none ∧
    (heartbeat 0 "h" 1 "g" true [] []).err.isSome = true :=
  heartbeat_validation 0 "h" 1 "g" true [] [] (Or.inl rfl)

/-- C7: for every valid `status_info`, a storage-layer failure during
`heartbeat` does not raise: the call returns the caller's input
`status_info` itself (not the normalized record) and the table is
unchanged. -/
theorem heartbeat_storageFailure_returnsInput (now : ℤ) (host : String) (pid : ℤ)
    (genId : String) (store : Store) (status_info : Dict)
    (h1 : dmem status_info "role" = true) (h2 : dmem status_info "ttl" = true)
    (h3 : dmem status_info "load" = true)
    (h4 : isPosNum (dget status_info "ttl") = true) :
    heartbeat now host pid genId false store status_info =
      ⟨store, status_info, some status_info, none⟩ := by
  unfold heartbeat
  simp [h1, h2, h3, h4]

/-- Witness for C7: a valid status map survives a storage failure
unchanged. -/
theorem heartbeat_storageFailure_returnsInput_witness :
    heartbeat 5 "h" 1 "g" false []
        [("role", Value.str "w"), ("ttl", Value.num 60), ("load", Value.num 0)] =
      ⟨[], [("role", Value.str "w"), ("ttl", Value.num 60), ("load", Value.num 0)],
        some [("role", Value.str "w"), ("ttl", Value.num 60), ("load", Value.num 0)],
        none⟩ :=
  heartbeat_storageFailure_returnsInput 5 "h" 1 "g" []
    [("role", Value.str "w"), ("ttl", Value.num 60), ("load", Value.num 0)]
    (by decide) (by decide) (by decide) (by decide)

/-- C8: `purge_stale_services` with the default multiplier 2 keeps a stored
record exactly when its staleness `now - last_heartbeat` does not exceed
`2 × ttl`; in particular a merely unhealthy record (stale beyond `ttl` but
within `2 × ttl`) is left intact. -/
theorem purgeStaleServices_threshold (now : ℤ) (store : Store) (svc : Dict)
    (h : svc ∈ store) :
    (svc ∈ purge_stale_services now 2 store ↔
      ¬ now - asNum (dget svc "last_heartbeat") > asNum (dget svc "ttl") * 2) ∧
    (now - asNum (dget svc "last_heartbeat") > asNum (dget svc "ttl") ∧
       now - asNum (dget svc "last_heartbeat") ≤ asNum (dget svc "ttl") * 2 →
      svc ∈ purge_stale_services now 2 store) := by
  have hmem : svc ∈ purge_stale_services now 2 store ↔
      ¬ now - asNum (dget svc "last_heartbeat") > asNum (dget svc "ttl") * 2 := by
    unfold purge_stale_services
    rw [List.mem_filter]
    simp [h, purgeCond]
  refine ⟨hmem, fun hcase => hmem.mpr (by linarith [hcase.2])⟩

/-- Witness for C8: a record 110 seconds stale with a 60-second ttl (merely
unhealthy) is kept by the purge. -/
theorem purgeStaleServices_threshold_witness :
    (([("id", Value.str "a"), ("ttl", Value.num 60), ("last_heartbeat", Value.time 0)] : Dict) ∈
        purge_stale_services 110 2
          [[("id", Value.str "a"), ("ttl", Value.num 60), ("last_heartbeat", Value.time 0)]] ↔
      ¬ (110 : ℤ) - asNum (dget [("id", Value.str "a"), ("ttl", Value.num 60),
          ("last_heartbeat", Value.time 0)] "last_heartbeat") >
        asNum (dget [("id", Value.str "a"), ("ttl", Value.num 60),
          ("last_heartbeat", Value.time 0)] "ttl") * 2) ∧
    ((110 : ℤ) - asNum (dget [("id", Value.str "a"), ("ttl", Value.num 60),
          ("last_heartbeat", Value.time 0)] "last_heartbeat") >
        asNum (dget [("id", Value.str "a"), ("ttl", Value.num 60),
          ("last_heartbeat", Value.time 0)] "ttl") ∧
       (110 : ℤ) - asNum (dget [("id", Value.str "a"), ("ttl", Value.num 60),
          ("last_heartbeat", Value.time 0)] "last_heartbeat") ≤
        asNum (dget [("id", Value.str "a"), ("ttl", Value.num 60),
          ("last_heartbeat", Value.time 0)] "ttl") * 2 →
      ([("id", Value.str "a"), ("ttl", Value.num 60), ("last_heartbeat", Value.time 0)] : Dict) ∈
        purge_stale_services 110 2
          [[("id", Value.str "a"), ("ttl", Value.num 60), ("last_heartbeat", Value.time 0)]]) :=
  purgeStaleServices_threshold 110
    [[("id", Value.str "a"), ("ttl", Value.num 60), ("last_heartbeat", Value.time 0)]]
    [("id", Value.str "a"), ("ttl", Value.num 60), ("last_heartbeat", Value.time 0)]
    (by decide)

/-- Counterexample to C3: a candidate missing both `role` and `load` is not
rejected — `unique_service` raises nothing and writes the candidate to the
previously empty table. -/
theorem uniqueService_missingRoleLoad_notRejected :
    dget [("ttl", Value.num 60)] "role" = none ∧
    dget [("ttl", Value.num 60)] "load" = none ∧
    (unique_service 0 "h" 1 "r" (some [("ttl", Value.num 60)]) []).err = none ∧
    (unique_service 0 "h" 1 "r" (some [("ttl", Value.num 60)]) []).store ≠ [] := by
  decide

/-- C3 as amended: `unique_service` validates only `ttl` of the candidate —
a candidate whose `ttl` (after `id` is forced to `role`) is missing or not
a number greater than zero fails with the validation error before any
storage operation, the table left unchanged. -/
theorem uniqueService_ttlValidation (now : ℤ) (host : String) (pid : ℤ)
    (role : String) (cand0 : Dict) (store : Store)
    (h : isPosNum (dget (dset cand0 "id" (Value.str role)) "ttl") = false) :
    (unique_service now host pid role (some cand0) store).store = store ∧
    (unique_service now host pid role (some cand0) store).ret = none ∧
    (unique_service now host pid role (some cand0) store).err.isSome = true := by
  unfold unique_service
  by_cases h1 : dmem (dset cand0 "id" (Value.str role)) "ttl"
  · simp [h1, h]
  · simp [h1]

/-- Witness for C3 as amended: a candidate with no `ttl` at all is rejected
and the table stays empty. -/
theorem uniqueService_ttlValidation_witness :
    (unique_service 0 "h" 1 "r" (some [("load", Value.num 1)]) []).store = [] ∧
    (unique_service 0 "h" 1 "r" (some [("load", Value.num 1)]) []).ret = none ∧
    (unique_service 0 "h" 1 "r" (some [("load", Value.num 1)]) []).err.isSome = true :=
  uniqueService_ttlValidation 0 "h" 1 "r" [("load", Value.num 1)] [] (by decide)

/-- Counterexample to C2: with a healthy incumbent row that carries an
extra field `"extra"` absent from the candidate but agrees with the
candidate on every key the candidate has, the returned row (`new_val`, the
kept incumbent) differs from the candidate in a non-timestamp field, yet
the code still recognizes the candidate as the winner and issues the
follow-up `last_heartbeat` refresh (the stored heartbeat moves from 90 to
the captured now 100; a losing candidate would have left it at 90). -/
theorem uniqueService_winnerCheck_ignoresIncumbentOnlyFields :
    (electionStep 100 "h" 1 "r"
        [("ttl", Value.num 60), ("host", Value.str "h"), ("pid", Value.num 1)]
        [[("id", Value.str "r"), ("ttl", Value.num 60), ("host", Value.str "h"),
          ("pid", Value.num 1), ("first_heartbeat", Value.time 0),
          ("last_heartbeat", Value.time 90), ("extra", Value.str "x")]]).newVal =
      some [("id", Value.str "r"), ("ttl", Value.num 60), ("host", Value.str "h"),
        ("pid", Value.num 1), ("first_heartbeat", Value.time 0),
        ("last_heartbeat", Value.time 90), ("extra", Value.str "x")] ∧
    dget [("id", Value.str "r"), ("ttl", Value.num 60), ("host", Value.str "h"),
        ("pid", Value.num 1), ("first_heartbeat", Value.time 0),
        ("last_heartbeat", Value.time 90), ("extra", Value.str "x")] "extra" =
      some (Value.str "x") ∧
    dget (stampCandidate 100 "h" 1 "r"
        [("ttl", Value.num 60), ("host", Value.str "h"), ("pid", Value.num 1)]) "extra" =
      none ∧
    (storeGet (electionStep 100 "h" 1 "r"
        [("ttl", Value.num 60), ("host", Value.str "h"), ("pid", Value.num 1)]
        [[("id", Value.str "r"), ("ttl", Value.num 60), ("host", Value.str "h"),
          ("pid", Value.num 1), ("first_heartbeat", Value.time 0),
          ("last_heartbeat", Value.time 90), ("extra", Value.str "x")]]).store "r").map
      (fun d => dget d "last_heartbeat") = some (some (Value.time 100)) := by
  decide

/-- C2 as amended: the candidate is recognized as the winner if and only if
every field of the **candidate** other than `first_heartbeat` and
`last_heartbeat` has the same value in the returned row; fields present in
the returned row but absent from the candidate are not compared. -/
theorem uniqueService_winnerCheck_candidateFields (newVal cand : Dict) :
    isWinner newVal cand = true ↔
      ∀ k v, dget cand k = some v →
        ¬ (k = "first_heartbeat" ∨ k = "last_heartbeat") →
        dget newVal k = some v := by
  unfold isWinner
  rw [List.all_eq_true]
  constructor
  · intro hall k v hv hk
    push_neg at hk
    have hmem : k ∈ cand.map Prod.fst := mem_keys_of_dget hv
    have := hall k hmem
    simp only [Bool.or_eq_true, decide_eq_true_eq] at this
    rcases this with (h | h) | h
    · exact absurd h hk.1
    · exact absurd h hk.2
    · rw [h, hv]
  · intro hfor k hmem
    simp only [Bool.or_eq_true, decide_eq_true_eq]
    by_cases hk1 : k = "first_heartbeat"
    · exact Or.inl (Or.inl hk1)
    · by_cases hk2 : k = "last_heartbeat"
      · exact Or.inl (Or.inr hk2)
      · right
        have hs := dget_isSome_of_mem_keys hmem
        obtain ⟨v, hv⟩ := Option.isSome_iff_exists.mp hs
        rw [hv]
        exact hfor k v hv (by simp [hk1, hk2])

/-- Counterexample to C9: `unique_service` mutates the caller's candidate
dict in place — after the call the caller's dict is no longer
`[("ttl", 60)]`: among other changes, it now carries `id = "r"` although
the caller never set an `id`. -/
theorem uniqueService_mutatesCandidate_cex :
    (unique_service 0 "h" 1 "r" (some [("ttl", Value.num 60)]) []).candAfter ≠
      some [("ttl", Value.num 60)] ∧
    Option.bind (unique_service 0 "h" 1 "r"
        (some [("ttl", Value.num 60)]) []).candAfter (fun d => dget d "id") =
      some (Value.str "r") ∧
    dget [("ttl", Value.num 60)] "id" = none := by
  decide

/-- C9 as amended: `heartbeat` builds its record on a copy and leaves the
caller's `status_info` unmodified, but `unique_service` mutates the
caller's candidate dict in place: after any call with a valid candidate,
the caller's dict has `id` forced to `role`, `first_heartbeat` and
`last_heartbeat` stamped with the captured now, `host`/`pid` defaulted
from the environment when absent, and `first_heartbeat` deleted from the
caller's dict exactly when the candidate is recognized as the winner. -/
theorem uniqueService_candidateMutation (now : ℤ) (host : String) (pid : ℤ)
    (role : String) (cand0 : Dict) (store : Store)
    (h : isPosNum (dget cand0 "ttl") = true) :
    (∀ genId storageOk st si,
      (heartbeat now host pid genId storageOk st si).statusAfter = si) ∧
    dget (stampCandidate now host pid role cand0) "first_heartbeat" =
      some (Value.time now) ∧
    ∃ d, (unique_service now host pid role (some cand0) store).candAfter = some d ∧
      dget d "id" = some (Value.str role) ∧
      dget d "last_heartbeat" = some (Value.time now) ∧
      (dget cand0 "host" = none → dget d "host" = some (Value.str host)) ∧
      (dget cand0 "pid" = none → dget d "pid" = some (Value.num pid)) ∧
      (if isWinner
            (conditionalReplace now role (stampCandidate now host pid role cand0) store).2
            (stampCandidate now host pid role cand0) = true
       then d = derase (stampCandidate now host pid role cand0) "first_heartbeat"
       else d = stampCandidate now host pid role cand0 ∧
            dget d "first_heartbeat" = some (Value.time now)) := by
  refine ⟨?_, stampCandidate_dget_firstHeartbeat now host pid role cand0, ?_⟩
  · intro genId storageOk st si
    unfold heartbeat
    split_ifs <;> rfl
  · have httl : dget (dset cand0 "id" (Value.str role)) "ttl" = dget cand0 "ttl" :=
      dget_dset_ne _ _ _ _ (by decide)
    have h1 : dmem (dset cand0 "id" (Value.str role)) "ttl" = true := by
      rw [dmem, httl]
      exact isPosNum_isSome h
    have h2 : isPosNum (dget (dset cand0 "id" (Value.str role)) "ttl") = true := by
      rw [httl]; exact h
    unfold unique_service
    by_cases hw : isWinner
        (conditionalReplace now role (stampCandidate now host pid role cand0) store).2
        (stampCandidate now host pid role cand0)
    · refine ⟨derase (stampCandidate now host pid role cand0) "first_heartbeat",
        by simp [h1, h2, hw], ?_, ?_, ?_, ?_, ?_⟩
      · rw [dget_derase_ne _ _ _ (by decide), stampCandidate_dget_id]
      · rw [dget_derase_ne _ _ _ (by decide), stampCandidate_dget_lastHeartbeat]
      · intro hh
        rw [dget_derase_ne _ _ _ (by decide)]
        exact stampCandidate_dget_host now host pid role cand0 hh
      · intro hh
        rw [dget_derase_ne _ _ _ (by decide)]
        exact stampCandidate_dget_pid now host pid role cand0 hh
      · rw [if_pos hw]
    · refine ⟨stampCandidate now host pid role cand0,
        by simp [h1, h2, hw], stampCandidate_dget_id now host pid role cand0,
        stampCandidate_dget_lastHeartbeat now host pid role cand0, ?_, ?_, ?_⟩
      · exact fun hh => stampCandidate_dget_host now host pid role cand0 hh
      · exact fun hh => stampCandidate_dget_pid now host pid role cand0 hh
      · rw [if_neg hw]
        exact ⟨rfl, stampCandidate_dget_firstHeartbeat now host pid role cand0⟩

/-- Witness for C9 as amended: a valid candidate that supplied neither
`id`, timestamps, `host` nor `pid` comes back with `id = "r"`, stamped
heartbeats, defaulted `host`/`pid`, and `first_heartbeat` deleted exactly
when it won. -/
theorem uniqueService_candidateMutation_witness :
    (∀ genId storageOk st si,
      (heartbeat 7 "h" 1 genId storageOk st si).statusAfter = si) ∧
    dget (stampCandidate 7 "h" 1 "r" [("ttl", Value.num 60)]) "first_heartbeat" =
      some (Value.time 7) ∧
    ∃ d, (unique_service 7 "h" 1 "r"
        (some [("ttl", Value.num 60)]) []).candAfter = some d ∧
      dget d "id" = some (Value.str "r") ∧
      dget d "last_heartbeat" = some (Value.time 7) ∧
      (dget [("ttl", Value.num 60)] "host" = none →
        dget d "host" = some (Value.str "h")) ∧
      (dget [("ttl", Value.num 60)] "pid" = none →
        dget d "pid" = some (Value.num 1)) ∧
      (if isWinner
            (conditionalReplace 7 "r" (stampCandidate 7 "h" 1 "r" [("ttl", Value.num 60)]) []).2
            (stampCandidate 7 "h" 1 "r" [("ttl", Value.num 60)]) = true
       then d = derase (stampCandidate 7 "h" 1 "r" [("ttl", Value.num 60)]) "first_heartbeat"
       else d = stampCandidate 7 "h" 1 "r" [("ttl", Value.num 60)] ∧
            dget d "first_heartbeat" = some (Value.time 7)) :=
  uniqueService_candidateMutation 7 "h" 1 "r" [("ttl", Value.num 60)] [] (by decide)

/-- C1: the conditional replace of `unique_service` (for a candidate whose
`id` is the role, as the caller stamps it) writes `cand` exactly when the
row keyed by `role` is absent, or present but with `last_heartbeat` not
newer than `now - ttl`; when the row is present and live the write is a
no-op (the table is unchanged); and the returned `new_val` is always the
row stored after the decision. -/
theorem uniqueService_conditionalReplace_spec (now : ℤ) (role : String)
    (cand : Dict) (store : Store)
    (hid : dget cand "id" = some (Value.str role)) :
    storeGet (conditionalReplace now role cand store).1 role =
      some (conditionalReplace now role cand store).2 ∧
    (storeGet store role = none → (conditionalReplace now role cand store).2 = cand) ∧
    ∀ row, storeGet store role = some row →
      (¬ asNum (dget row "last_heartbeat") > now - asNum (dget row "ttl") →
        (conditionalReplace now role cand store).2 = cand) ∧
      (asNum (dget row "last_heartbeat") > now - asNum (dget row "ttl") →
        (conditionalReplace now role cand store).2 = row ∧
        (conditionalReplace now role cand store).1 = store) := by
  cases hrow : storeGet store role with
  | none =>
      refine ⟨?_, fun _ => ?_, fun row hrow2 => ?_⟩
      · simp only [conditionalReplace, hrow]
        exact storeGet_storeReplaceAt store hid
      · simp only [conditionalReplace, hrow]
      · exact Option.noConfusion hrow2
  | some row =>
      by_cases hl : replaceLiveCond now row
      · have hlp : asNum (dget row "last_heartbeat") > now - asNum (dget row "ttl") := by
          simpa [replaceLiveCond] using hl
        refine ⟨?_, fun hnone => ?_, fun row' hrow' => ?_⟩
        · simp only [conditionalReplace, hrow, if_pos hl]
          rw [storeReplaceAt_of_get_self hrow]
          exact hrow
        · exact Option.noConfusion hnone
        · injection hrow' with hrow'
          subst hrow'
          refine ⟨fun hn => absurd hlp hn, fun _ => ⟨?_, ?_⟩⟩
          · simp only [conditionalReplace, hrow, if_pos hl]
          · simp only [conditionalReplace, hrow, if_pos hl]
            exact storeReplaceAt_of_get_self hrow
      · have hlp : ¬ asNum (dget row "last_heartbeat") > now - asNum (dget row "ttl") := by
          simpa [replaceLiveCond] using hl
        refine ⟨?_, fun hnone => ?_, fun row' hrow' => ?_⟩
        · simp only [conditionalReplace, hrow, if_neg hl]
          exact storeGet_storeReplaceAt store hid
        · exact Option.noConfusion hnone
        · injection hrow' with hrow'
          subst hrow'
          refine ⟨fun _ => ?_, fun hy => absurd hy hlp⟩
          simp only [conditionalReplace, hrow, if_neg hl]

/-- Witness for C1: on an empty table the candidate is written and comes
back as `new_val`; on a table holding a live incumbent the write is a
no-op returning the incumbent. -/
theorem uniqueService_conditionalReplace_spec_witness :
    ((conditionalReplace 0 "r" [("id", Value.str "r"), ("ttl", Value.num 60)] []).2 =
      [("id", Value.str "r"), ("ttl", Value.num 60)] ∧
     (conditionalReplace 100 "r" [("id", Value.str "r"), ("ttl", Value.num 60)]
        [[("id", Value.str "r"), ("ttl", Value.num 60),
          ("last_heartbeat", Value.time 90)]]).1 =
      [[("id", Value.str "r"), ("ttl", Value.num 60),
        ("last_heartbeat", Value.time 90)]]) :=
  ⟨(uniqueService_conditionalReplace_spec 0 "r"
      [("id", Value.str "r"), ("ttl", Value.num 60)] [] (by decide)).2.1 rfl,
   ((uniqueService_conditionalReplace_spec 100 "r"
      [("id", Value.str "r"), ("ttl", Value.num 60)]
      [[("id", Value.str "r"), ("ttl", Value.num 60),
        ("last_heartbeat", Value.time 90)]] (by decide)).2.2
     [("id", Value.str "r"), ("ttl", Value.num 60), ("last_heartbeat", Value.time 90)]
     rfl).2 (by decide) |>.2⟩

/-- C10: `unique_service` called without a candidate raises nothing,
performs no write (the table afterwards is the table before), and — when
the table keys `role` uniquely — returns the record whose `id` equals
`role` exactly when it satisfies `now - last_heartbeat < ttl`, otherwise
nothing. -/
theorem uniqueService_noCandidate_readOnly (now : ℤ) (host : String) (pid : ℤ)
    (role : String) (store : Store)
    (hone : store.countP (fun d => decide (dget d "id" = some (Value.str role))) ≤ 1) :
    (unique_service now host pid role none store).store = store ∧
    (unique_service now host pid role none store).err = none ∧
    (unique_service now host pid role none store).candAfter = none ∧
    (storeGet store role = none → (unique_service now host pid role none store).ret = none) ∧
    ∀ rcd, storeGet store role = some rcd →
      (unique_service now host pid role none store).ret =
        if now - asNum (dget rcd "last_heartbeat") < asNum (dget rcd "ttl")
        then some rcd else none := by
  refine ⟨rfl, rfl, rfl, ?_, ?_⟩
  · intro h
    show finalRead now role store = none
    exact finalRead_of_get_none h
  · intro rcd h
    show finalRead now role store = _
    rw [finalRead_of_get_unique hone h]
    have hiff : finalFilterCond now rcd = true ↔
        now - asNum (dget rcd "last_heartbeat") < asNum (dget rcd "ttl") := by
      simp only [finalFilterCond, decide_eq_true_eq, gt_iff_lt]
      constructor <;> intro h' <;> linarith
    by_cases hc : finalFilterCond now rcd
    · rw [if_pos hc, if_pos (hiff.mp hc)]
    · rw [if_neg hc, if_neg (fun hp => hc (hiff.mpr hp))]

/-- Witness for C10: with one record keyed `"r"` that is 10 seconds stale
against a 60-second ttl, the candidate-less call leaves the table alone
and returns that record. -/
theorem uniqueService_noCandidate_readOnly_witness :
    (unique_service 100 "h" 1 "r" none
        [[("id", Value.str "r"), ("ttl", Value.num 60),
          ("last_heartbeat", Value.time 90)]]).store =
      [[("id", Value.str "r"), ("ttl", Value.num 60),
        ("last_heartbeat", Value.time 90)]] ∧
    (unique_service 100 "h" 1 "r" none
        [[("id", Value.str "r"), ("ttl", Value.num 60),
          ("last_heartbeat", Value.time 90)]]).err = none ∧
    (unique_service 100 "h" 1 "r" none
        [[("id", Value.str "r"), ("ttl", Value.num 60),
          ("last_heartbeat", Value.time 90)]]).candAfter = none ∧
    (storeGet [[("id", Value.str "r"), ("ttl", Value.num 60),
        ("last_heartbeat", Value.time 90)]] "r" = none →
      (unique_service 100 "h" 1 "r" none
        [[("id", Value.str "r"), ("ttl", Value.num 60),
          ("last_heartbeat", Value.time 90)]]).ret = none) ∧
    ∀ rcd, storeGet [[("id", Value.str "r"), ("ttl", Value.num 60),
        ("last_heartbeat", Value.time 90)]] "r" = some rcd →
      (unique_service 100 "h" 1 "r" none
        [[("id", Value.str "r"), ("ttl", Value.num 60),
          ("last_heartbeat", Value.time 90)]]).ret =
        if (100 : ℤ) - asNum (dget rcd "last_heartbeat") < asNum (dget rcd "ttl")
        then some rcd else none :=
  uniqueService_noCandidate_readOnly 100 "h" 1 "r"
    [[("id", Value.str "r"), ("ttl", Value.num 60), ("last_heartbeat", Value.time 90)]]
    (by decide)

/-- C5: one `unique_service` call captures `now` once — the staleness test
of the conditional replace and the health filter of the final re-read are
the same predicate, and the whole call is the election phase followed by
the final read, both evaluated at that same single `now`. -/
theorem uniqueService_singleNow (now : ℤ) (host : String) (pid : ℤ)
    (role : String) (candidate : Option Dict) (store : Store) :
    (∀ row, replaceLiveCond now row = finalFilterCond now row) ∧
    unique_service now host pid role candidate store =
      (match candidate with
       | none => ⟨store, none, finalRead now role store, none⟩
       | some cand0 =>
           let e := electionStep now host pid role cand0 store
           ⟨e.store, some e.cand,
            if e.err = none then finalRead now role e.store else none, e.err⟩) := by
  refine ⟨fun _ => rfl, ?_⟩
  cases candidate with
  | none => rfl
  | some cand0 =>
      simp only [unique_service, electionStep]
      by_cases h1 : dmem (dset cand0 "id" (Value.str role)) "ttl"
      · by_cases h2 : isPosNum (dget (dset cand0 "id" (Value.str role)) "ttl")
        · simp only [h1, h2, not_true, if_neg, ite_false, Bool.not_eq_true]
          by_cases hw : isWinner
              (conditionalReplace now role (stampCandidate now host pid role cand0) store).2
              (stampCandidate now host pid role cand0)
          · simp [hw]
          · simp [hw]
        · simp [h1, h2]
      · simp [h1]

/-- C4: `healthy_service(role)` returns nothing exactly when every stored
record for `role` fails the health test, and any record it returns is a
stored record for `role` that passes the health test and has minimal
`load` among all such records (the embedding is a function, so the result
is deterministic for identical inputs, ties included). -/
theorem healthyService_minLoad (now : ℤ) (role : String) (store : Store) :
    (healthy_service now role store = none ↔
      ∀ svc ∈ store, dget svc "role" = some (Value.str role) →
        svcHealthy now svc = false) ∧
    ∀ rcd, healthy_service now role store = some rcd →
      rcd ∈ store ∧ dget rcd "role" = some (Value.str role) ∧
      svcHealthy now rcd = true ∧
      ∀ other ∈ store, dget other "role" = some (Value.str role) →
        svcHealthy now other = true →
        asNum (dget rcd "load") ≤ asNum (dget other "load") := by
  have hperm := List.perm_insertionSort loadLE
    ((store.filter fun svc => decide (dget svc "role" = some (Value.str role))).filter
      (svcHealthy now))
  have hsorted := List.sorted_insertionSort loadLE
    ((store.filter fun svc => decide (dget svc "role" = some (Value.str role))).filter
      (svcHealthy now))
  have hmeml : ∀ x, x ∈ ((store.filter fun svc =>
      decide (dget svc "role" = some (Value.str role))).filter (svcHealthy now)) ↔
      x ∈ store ∧ dget x "role" = some (Value.str role) ∧ svcHealthy now x = true := by
    intro x
    rw [List.mem_filter, List.mem_filter]
    simp [and_assoc]
  constructor
  · unfold healthy_service
    rw [List.head?_eq_none_iff]
    constructor
    · intro h svc hmem hrole
      by_contra hh
      have hin : svc ∈ ((store.filter fun svc =>
          decide (dget svc "role" = some (Value.str role))).filter (svcHealthy now)) :=
        (hmeml svc).mpr ⟨hmem, hrole, by simpa using hh⟩
      rw [← hperm.mem_iff, h] at hin
      simp at hin
    · intro h
      have hnil : ((store.filter fun svc =>
          decide (dget svc "role" = some (Value.str role))).filter (svcHealthy now)) = [] := by
        rw [List.eq_nil_iff_forall_not_mem]
        intro x hx
        obtain ⟨hx1, hx2, hx3⟩ := (hmeml x).mp hx
        rw [h x hx1 hx2] at hx3
        cases hx3
      rw [hnil]
      rfl
  · intro rcd hhead
    unfold healthy_service at hhead
    cases hs : List.insertionSort loadLE
        ((store.filter fun svc =>
          decide (dget svc "role" = some (Value.str role))).filter (svcHealthy now)) with
    | nil => rw [hs] at hhead; cases hhead
    | cons hd tl =>
        rw [hs] at hhead
        injection hhead with hhead
        subst hhead
        have hmem : hd ∈ ((store.filter fun svc =>
            decide (dget svc "role" = some (Value.str role))).filter (svcHealthy now)) := by
          rw [← hperm.mem_iff, hs]
          exact List.mem_cons_self _ _
        obtain ⟨h1, h2, h3⟩ := (hmeml hd).mp hmem
        refine ⟨h1, h2, h3, ?_⟩
        intro other hmo hro hho
        have hin : other ∈ ((store.filter fun svc =>
            decide (dget svc "role" = some (Value.str role))).filter (svcHealthy now)) :=
          (hmeml other).mpr ⟨hmo, hro, hho⟩
        rw [← hperm.mem_iff, hs, List.mem_cons] at hin
        rcases hin with hin | hin
        · rw [hin]
        · rw [hs] at hsorted
          exact List.rel_of_sorted_cons hsorted other hin

end Doublethink
